import Mathlib

/-
Verification of the CanvasNode component
(src/src/030-classes/108.5-getters.solution.ts).

The component is a JavaScript class with two numeric fields, a
constructor taking an optional configuration object, a getter that
returns a fresh snapshot object, and a move method that overwrites both
fields.  We embed the runtime semantics shallowly:

  - JSNum models the JavaScript number domain as stored values.  The
    program performs no arithmetic, so finite doubles are represented by
    rationals and the non-finite values by dedicated constructors.
  - Obj is a two-field heap object (both CanvasNode instances and the
    snapshot objects returned by the getter have this shape).
  - Heap is a list of objects addressed by index; object-literal
    evaluation allocates a fresh address at the end.  This makes the
    aliasing and freshness guarantees of the getter expressible.
  - Config models the configuration object; each field is an Option so
    that the nullish-coalescing reads in the constructor body
    (position?.x ?? 0, position?.y ?? 0) are embedded faithfully.
-/

/-- JavaScript number domain, as values stored by the program: a finite
double (represented by a rational, injectively, since the program does no
arithmetic on them), positive infinity, negative infinity, or NaN. -/
inductive JSNum where
  | num (q : ℚ)
  | posInf
  | negInf
  | nan
deriving DecidableEq, Repr

/-- Number.isFinite on the stored value. -/
def JSNum.isFinite : JSNum → Bool
  | num _ => true
  | _ => false

/-- Number.isNaN on the stored value. -/
def JSNum.isNaN : JSNum → Bool
  | nan => true
  | _ => false

/-- Test that a possibly absent number is finite when present. -/
def finiteOpt : Option JSNum → Bool
  | none => true
  | some v => v.isFinite

/-- A heap object with fields x and y.  Both CanvasNode instances and the
snapshot objects built by the position getter have exactly this shape. -/
structure Obj where
  x : JSNum
  y : JSNum
deriving DecidableEq, Repr

/-- The constructor configuration object.  In the source the parameter is
typed as a position record; at runtime the constructor body reads each
field through optional chaining, so each field is modelled as optional
(an absent field reads as undefined). -/
structure Config where
  x : Option JSNum
  y : Option JSNum
deriving DecidableEq, Repr

/-- A heap of objects: the address of an object is its index in the list,
and fresh allocation appends at the end. -/
structure Heap where
  objs : List Obj
deriving DecidableEq, Repr

/-- Number of live objects; every address below this is valid. -/
def Heap.size (h : Heap) : ℕ := h.objs.length

/-- Evaluation of an object literal: allocates a fresh object and returns
its address together with the extended heap. -/
def Heap.alloc (h : Heap) (o : Obj) : ℕ × Heap :=
  (h.objs.length, ⟨h.objs ++ [o]⟩)

/-- Read the object at an address (the default is never reachable from
valid addresses, which every theorem below tracks). -/
def Heap.read (h : Heap) (a : ℕ) : Obj :=
  h.objs.getD a ⟨JSNum.nan, JSNum.nan⟩

/-- Overwrite the object at an address. -/
def Heap.write (h : Heap) (a : ℕ) (o : Obj) : Heap :=
  ⟨h.objs.set a o⟩

/-- Semantics of the nullish-coalescing operator v ?? d on a possibly
undefined number. -/
def nullish (v : Option JSNum) (d : JSNum) : JSNum := v.getD d

/-- Semantics of the optional-chaining read position?.f: undefined when
the receiver is undefined, otherwise the field value. -/
def optChain (position : Option Config) (f : Config → Option JSNum) :
    Option JSNum :=
  position.bind f

/-- Embedding of the CanvasNode constructor body:
this.x = position?.x ?? 0; this.y = position?.y ?? 0.  The new instance
is allocated on the heap and its address returned. -/
def CanvasNode.construct (h : Heap) (position : Option Config) : ℕ × Heap :=
  h.alloc
    { x := nullish (optChain position Config.x) (JSNum.num 0)
      y := nullish (optChain position Config.y) (JSNum.num 0) }

/-- Embedding of the position getter body: it evaluates the object
literal with fields x := this.x and y := this.y, allocating a fresh
snapshot object, and returns its address together with the new heap. -/
def CanvasNode.positionGet (h : Heap) (self : ℕ) : ℕ × Heap :=
  h.alloc { x := (h.read self).x, y := (h.read self).y }

/-- Embedding of the move method body: this.x = x; this.y = y. -/
def CanvasNode.move (h : Heap) (self : ℕ) (x y : JSNum) : Heap :=
  h.write self { x := x, y := y }

/-- Value of the snapshot returned by the position getter (reading the
freshly allocated snapshot object in the resulting heap). -/
def queryValue (h : Heap) (self : ℕ) : Obj :=
  (CanvasNode.positionGet h self).2.read (CanvasNode.positionGet h self).1

/-
Error layer.  JavaScript member access and method invocation can throw a
TypeError when the receiver is undefined or not a live object; the
following definitions embed the operations together with that failure
mode, so that the absence of failures is a theorem rather than an
artifact of the pure embedding.
-/

/-- The only runtime failure relevant to this component. -/
inductive JSError where
  | typeError
deriving DecidableEq, Repr

/-- Semantics of a plain member read position.f: throws a TypeError when
the receiver is undefined. -/
def strictAccess (position : Option Config) (f : Config → Option JSNum) :
    Except JSError (Option JSNum) :=
  match position with
  | none => Except.error JSError.typeError
  | some c => Except.ok (f c)

/-- Semantics of the optional-chaining read position?.f used by the
source: never throws. -/
def optChainE (position : Option Config) (f : Config → Option JSNum) :
    Except JSError (Option JSNum) :=
  Except.ok (position.bind f)

/-- Constructor in the error layer: the source guards both field reads
with optional chaining, so no failure path is reachable. -/
def CanvasNode.constructE (h : Heap) (position : Option Config) :
    Except JSError (ℕ × Heap) := do
  let px ← optChainE position Config.x
  let py ← optChainE position Config.y
  Except.ok (h.alloc
    { x := nullish px (JSNum.num 0), y := nullish py (JSNum.num 0) })

/-- Reading a heap object at an address, throwing when the address is not
a live object. -/
def Heap.readE (h : Heap) (a : ℕ) : Except JSError Obj :=
  match h.objs[a]? with
  | some o => Except.ok o
  | none => Except.error JSError.typeError

/-- Position getter in the error layer: requires the receiver to be a
live object, then allocates the snapshot. -/
def CanvasNode.positionGetE (h : Heap) (self : ℕ) :
    Except JSError (ℕ × Heap) := do
  let o ← h.readE self
  Except.ok (h.alloc { x := o.x, y := o.y })

/-- Move in the error layer: requires the receiver to be a live object,
then overwrites both fields. -/
def CanvasNode.moveE (h : Heap) (self : ℕ) (x y : JSNum) :
    Except JSError Heap := do
  let _ ← h.readE self
  Except.ok (h.write self { x := x, y := y })

/-
Operation sequences.  A client program constructs one node and then
performs any sequence of move and position-query operations; the
interpreter below runs such a sequence against the heap semantics and
records the value of every query result.
-/

/-- One client operation on the node. -/
inductive Op where
  | mov (x y : JSNum)
  | query
deriving DecidableEq, Repr

/-- Interpreter state: the heap, the address of the node, and the values
of the query results so far. -/
structure RunState where
  heap : Heap
  node : ℕ
  outputs : List Obj
deriving DecidableEq, Repr

/-- One interpreter step. -/
def step (s : RunState) : Op → RunState
  | Op.mov x y => { s with heap := CanvasNode.move s.heap s.node x y }
  | Op.query =>
      let r := CanvasNode.positionGet s.heap s.node
      { s with heap := r.2, outputs := s.outputs ++ [r.2.read r.1] }

/-- Run a whole client program: construct the node on an empty heap with
the given configuration, then execute the operations in order. -/
def runProgram (position : Option Config) (ops : List Op) : RunState :=
  let c := CanvasNode.construct ⟨[]⟩ position
  ops.foldl step { heap := c.2, node := c.1, outputs := [] }

/-- Modelled from the spec, for comparison with the heap interpreter: the
abstract state of the node is just the pair of its fields, each
initialized to the supplied value or zero. -/
def initObj (position : Option Config) : Obj :=
  { x := nullish (optChain position Config.x) (JSNum.num 0)
    y := nullish (optChain position Config.y) (JSNum.num 0) }

/-- Concrete one-object heap used to instantiate theorems with
hypotheses. -/
def sampleHeap : Heap := ⟨[⟨JSNum.num 0, JSNum.num 0⟩]⟩

/-- Modelled from the spec: a pure state function computing the abstract
final state and the query outputs of an operation sequence. -/
def specRun (o : Obj) : List Op → Obj × List Obj
  | [] => (o, [])
  | Op.mov x y :: ops =>
      let r := specRun ⟨x, y⟩ ops
      (r.1, r.2)
  | Op.query :: ops =>
      let r := specRun o ops
      (r.1, o :: r.2)

/- Basic heap lemmas. -/

theorem Heap.alloc_fst (h : Heap) (o : Obj) : (h.alloc o).1 = h.size := rfl

theorem Heap.size_alloc (h : Heap) (o : Obj) :
    ((h.alloc o).2).size = h.size + 1 := by
  simp [Heap.alloc, Heap.size]

theorem Heap.read_alloc_new (h : Heap) (o : Obj) :
    ((h.alloc o).2).read (h.alloc o).1 = o := by
  simp [Heap.alloc, Heap.read, List.getD]

theorem Heap.read_alloc_old (h : Heap) (o : Obj) (a : ℕ) (ha : a < h.size) :
    ((h.alloc o).2).read a = h.read a := by
  simp only [Heap.alloc, Heap.read, List.getD_eq_getElem?_getD]
  rw [List.getElem?_append_left (show a < h.objs.length from ha)]

theorem Heap.size_write (h : Heap) (a : ℕ) (o : Obj) :
    (h.write a o).size = h.size := by
  simp [Heap.write, Heap.size]

theorem Heap.read_write_self (h : Heap) (a : ℕ) (o : Obj) (ha : a < h.size) :
    (h.write a o).read a = o := by
  simp only [Heap.write, Heap.read, List.getD_eq_getElem?_getD,
    List.getElem?_set_self (show a < h.objs.length from ha)]
  rfl

theorem Heap.read_write_other (h : Heap) (a b : ℕ) (o : Obj) (hne : a ≠ b) :
    (h.write a o).read b = h.read b := by
  simp [Heap.write, Heap.read, List.getD_eq_getElem?_getD,
    List.getElem?_set_ne hne]

/-- The value of a position query is exactly the object stored at the
node address (the snapshot copies both fields). -/
theorem queryValue_eq_read (h : Heap) (self : ℕ) :
    queryValue h self = h.read self := by
  simpa [queryValue, CanvasNode.positionGet] using
    Heap.read_alloc_new h ⟨(h.read self).x, (h.read self).y⟩

/-- Reading back a freshly constructed node yields the initialized
fields. -/
theorem construct_read (h : Heap) (position : Option Config) :
    (CanvasNode.construct h position).2.read (CanvasNode.construct h position).1 =
      ⟨nullish (optChain position Config.x) (JSNum.num 0),
       nullish (optChain position Config.y) (JSNum.num 0)⟩ :=
  Heap.read_alloc_new h _

/-- The address returned by the constructor is valid in the new heap. -/
theorem construct_valid (h : Heap) (position : Option Config) :
    (CanvasNode.construct h position).1 < (CanvasNode.construct h position).2.size := by
  have := Heap.size_alloc h
    ⟨nullish (optChain position Config.x) (JSNum.num 0),
     nullish (optChain position Config.y) (JSNum.num 0)⟩
  simp only [CanvasNode.construct, Heap.alloc_fst]
  omega

/-- Reading at a valid address never throws and agrees with the pure
read. -/
theorem Heap.readE_ok (h : Heap) (a : ℕ) (ha : a < h.size) :
    h.readE a = Except.ok (h.read a) := by
  have hsome : h.objs[a]? = some h.objs[a] :=
    List.getElem?_eq_getElem (show a < h.objs.length from ha)
  simp [Heap.readE, Heap.read, hsome, List.getD_eq_getElem?_getD]

/-- The heap interpreter simulates the pure state function: the node
address never changes, stays valid, the object it holds tracks the
abstract state, and the recorded outputs are the abstract outputs. -/
theorem foldl_step_simulates (ops : List Op) :
    ∀ s : RunState, s.node < s.heap.size →
      (List.foldl step s ops).node = s.node ∧
      s.node < (List.foldl step s ops).heap.size ∧
      (List.foldl step s ops).heap.read s.node =
        (specRun (s.heap.read s.node) ops).1 ∧
      (List.foldl step s ops).outputs =
        s.outputs ++ (specRun (s.heap.read s.node) ops).2 := by
  induction ops with
  | nil =>
      intro s hv
      exact ⟨rfl, hv, rfl, by simp [specRun]⟩
  | cons op ops ih =>
      intro s hv
      cases op with
      | mov x y =>
          have hv' : (step s (Op.mov x y)).node <
              (step s (Op.mov x y)).heap.size := by
            simpa [step, CanvasNode.move, Heap.size_write] using hv
          have hread : (step s (Op.mov x y)).heap.read s.node = Obj.mk x y := by
            simpa [step, CanvasNode.move] using
              Heap.read_write_self s.heap s.node ⟨x, y⟩ hv
          have h := ih (step s (Op.mov x y)) hv'
          simp only [show (step s (Op.mov x y)).node = s.node from rfl] at h
          rw [List.foldl_cons]
          refine ⟨h.1, h.2.1, ?_, ?_⟩
          · rw [h.2.2.1, hread]
            simp [specRun]
          · rw [h.2.2.2, hread]
            simp [step, specRun]
      | query =>
          have hv' : (step s Op.query).node < (step s Op.query).heap.size := by
            have := Heap.size_alloc s.heap
              ⟨(s.heap.read s.node).x, (s.heap.read s.node).y⟩
            simp only [step, CanvasNode.positionGet]
            omega
          have hreadn : (step s Op.query).heap.read s.node =
              s.heap.read s.node := by
            simpa [step, CanvasNode.positionGet] using
              Heap.read_alloc_old s.heap
                ⟨(s.heap.read s.node).x, (s.heap.read s.node).y⟩ s.node hv
          have hsnap : ((CanvasNode.positionGet s.heap s.node).2).read
              (CanvasNode.positionGet s.heap s.node).1 = s.heap.read s.node := by
            simpa [CanvasNode.positionGet] using
              Heap.read_alloc_new s.heap
                ⟨(s.heap.read s.node).x, (s.heap.read s.node).y⟩
          have h := ih (step s Op.query) hv'
          simp only [show (step s Op.query).node = s.node from rfl] at h
          rw [List.foldl_cons]
          refine ⟨h.1, h.2.1, ?_, ?_⟩
          · rw [h.2.2.1, hreadn]
            simp [specRun]
          · rw [h.2.2.2, hreadn]
            simp only [step, hsnap, specRun]
            simp

/-- The position getter leaves every existing object unchanged (it only
allocates the snapshot). -/
theorem positionGet_preserves_read (h : Heap) (p a : ℕ) (ha : a < h.size) :
    (CanvasNode.positionGet h p).2.read a = h.read a := by
  simpa [CanvasNode.positionGet] using
    Heap.read_alloc_old h ⟨(h.read p).x, (h.read p).y⟩ a ha

/-- The position getter grows the heap by exactly the snapshot object. -/
theorem positionGet_size (h : Heap) (p : ℕ) :
    (CanvasNode.positionGet h p).2.size = h.size + 1 := by
  simpa [CanvasNode.positionGet] using
    Heap.size_alloc h ⟨(h.read p).x, (h.read p).y⟩

/-- C1: for every node and every pair of numbers x, y, the move operation
unconditionally overwrites both internal fields with the supplied values,
so that a subsequent position query returns exactly those values. -/
theorem move_overwrites_both_fields (h : Heap) (p : ℕ) (x y : JSNum)
    (hp : p < h.size) :
    queryValue (CanvasNode.move h p x y) p = ⟨x, y⟩ := by
  rw [queryValue_eq_read]
  exact Heap.read_write_self h p ⟨x, y⟩ hp

/-- Witness for C1 at a concrete node and the arguments 10 and 20. -/
theorem move_overwrites_both_fields_witness :
    0 < sampleHeap.size ∧
    queryValue (CanvasNode.move sampleHeap 0 (JSNum.num 10) (JSNum.num 20)) 0 =
      ⟨JSNum.num 10, JSNum.num 20⟩ :=
  ⟨by decide,
   move_overwrites_both_fields sampleHeap 0 (JSNum.num 10) (JSNum.num 20)
     (by decide)⟩

/-- C2: each field is initialized to the supplied value or to 0 when
absent: construction with no configuration yields a position query result
of zeroes, and construction with both values supplied yields exactly
those values. -/
theorem construct_initializes_each_field (h : Heap) (v w : JSNum) :
    queryValue (CanvasNode.construct h none).2 (CanvasNode.construct h none).1 =
      ⟨JSNum.num 0, JSNum.num 0⟩ ∧
    queryValue (CanvasNode.construct h (some ⟨some v, some w⟩)).2
        (CanvasNode.construct h (some ⟨some v, some w⟩)).1 = ⟨v, w⟩ := by
  constructor <;>
    simp [queryValue_eq_read, construct_read, nullish, optChain]

/-- C3: the configuration options x and y are each independently
optional: supplying only x yields that x with y defaulted to 0, and
supplying only y yields that y with x defaulted to 0. -/
theorem construct_options_independently_optional (h : Heap) (v w : JSNum) :
    queryValue (CanvasNode.construct h (some ⟨some v, none⟩)).2
        (CanvasNode.construct h (some ⟨some v, none⟩)).1 = ⟨v, JSNum.num 0⟩ ∧
    queryValue (CanvasNode.construct h (some ⟨none, some w⟩)).2
        (CanvasNode.construct h (some ⟨none, some w⟩)).1 = ⟨JSNum.num 0, w⟩ := by
  constructor <;>
    simp [queryValue_eq_read, construct_read, nullish, optChain]

/-- C4: the position query allocates a fresh snapshot distinct from every
live object; the snapshot holds the node fields; overwriting the snapshot
does not change the node; and moving the node does not change the
snapshot. -/
theorem position_snapshot_independence (h : Heap) (p : ℕ) (hp : p < h.size) :
    (∀ a, a < h.size → (CanvasNode.positionGet h p).1 ≠ a) ∧
    (CanvasNode.positionGet h p).2.read (CanvasNode.positionGet h p).1 =
      h.read p ∧
    (∀ o : Obj,
      ((CanvasNode.positionGet h p).2.write (CanvasNode.positionGet h p).1
          o).read p = h.read p) ∧
    (∀ x y : JSNum,
      (CanvasNode.move (CanvasNode.positionGet h p).2 p x y).read
          (CanvasNode.positionGet h p).1 =
        (CanvasNode.positionGet h p).2.read (CanvasNode.positionGet h p).1) := by
  have hfst : (CanvasNode.positionGet h p).1 = h.size := rfl
  have hne : (CanvasNode.positionGet h p).1 ≠ p := by
    rw [hfst]; omega
  refine ⟨?_, ?_, ?_, ?_⟩
  · intro a ha
    rw [hfst]; omega
  · exact queryValue_eq_read h p
  · intro o
    rw [Heap.read_write_other _ _ _ _ hne]
    exact positionGet_preserves_read h p p hp
  · intro x y
    exact Heap.read_write_other (CanvasNode.positionGet h p).2 p
      (CanvasNode.positionGet h p).1 ⟨x, y⟩ (Ne.symm hne)

/-- Witness for C4 at a concrete one-object heap. -/
theorem position_snapshot_independence_witness :
    0 < sampleHeap.size ∧
    ((∀ a, a < sampleHeap.size → (CanvasNode.positionGet sampleHeap 0).1 ≠ a) ∧
     (CanvasNode.positionGet sampleHeap 0).2.read
       (CanvasNode.positionGet sampleHeap 0).1 = sampleHeap.read 0 ∧
     (∀ o : Obj,
       ((CanvasNode.positionGet sampleHeap 0).2.write
           (CanvasNode.positionGet sampleHeap 0).1 o).read 0 =
         sampleHeap.read 0) ∧
     (∀ x y : JSNum,
       (CanvasNode.move (CanvasNode.positionGet sampleHeap 0).2 0 x y).read
           (CanvasNode.positionGet sampleHeap 0).1 =
         (CanvasNode.positionGet sampleHeap 0).2.read
           (CanvasNode.positionGet sampleHeap 0).1)) :=
  ⟨by decide, position_snapshot_independence sampleHeap 0 (by decide)⟩

/-- C5 counterexample: the claimed invariant that both fields are always
finite fails on the code: positive infinity is a well-typed numeric
argument, and after move with it the x field is not finite. -/
theorem finite_invariant_counterexample :
    JSNum.isFinite
      ((CanvasNode.move (CanvasNode.construct ⟨[]⟩ none).2
          (CanvasNode.construct ⟨[]⟩ none).1 JSNum.posInf JSNum.posInf).read
        (CanvasNode.construct ⟨[]⟩ none).1).x = false := by
  decide

/-- C5 amended: the fields are always numbers, and they are finite
whenever the construction configuration and the move arguments supply
only finite values. -/
theorem fields_finite_of_finite_inputs (h : Heap) (position : Option Config)
    (p : ℕ) (x y : JSNum)
    (hcx : finiteOpt (optChain position Config.x) = true)
    (hcy : finiteOpt (optChain position Config.y) = true)
    (hx : x.isFinite = true) (hy : y.isFinite = true) (hp : p < h.size) :
    (((CanvasNode.construct h position).2.read
        (CanvasNode.construct h position).1).x.isFinite = true ∧
     ((CanvasNode.construct h position).2.read
        (CanvasNode.construct h position).1).y.isFinite = true) ∧
    (((CanvasNode.move h p x y).read p).x.isFinite = true ∧
     ((CanvasNode.move h p x y).read p).y.isFinite = true) := by
  have hmove : (CanvasNode.move h p x y).read p = ⟨x, y⟩ :=
    Heap.read_write_self h p ⟨x, y⟩ hp
  rw [construct_read, hmove]
  refine ⟨⟨?_, ?_⟩, hx, hy⟩
  · cases hopt : optChain position Config.x with
    | none => simp [nullish, hopt, JSNum.isFinite]
    | some v =>
        rw [hopt] at hcx
        simpa [nullish, hopt, finiteOpt] using hcx
  · cases hopt : optChain position Config.y with
    | none => simp [nullish, hopt, JSNum.isFinite]
    | some v =>
        rw [hopt] at hcy
        simpa [nullish, hopt, finiteOpt] using hcy

/-- Witness for the amended C5 at a concrete partial configuration and
finite move arguments. -/
theorem fields_finite_of_finite_inputs_witness :
    finiteOpt (optChain (some ⟨some (JSNum.num 1), none⟩) Config.x) = true ∧
    finiteOpt (optChain (some ⟨some (JSNum.num 1), none⟩) Config.y) = true ∧
    JSNum.isFinite (JSNum.num 2) = true ∧
    JSNum.isFinite (JSNum.num 3) = true ∧
    0 < sampleHeap.size ∧
    ((((CanvasNode.construct sampleHeap (some ⟨some (JSNum.num 1), none⟩)).2.read
        (CanvasNode.construct sampleHeap (some ⟨some (JSNum.num 1), none⟩)).1).x.isFinite = true ∧
      ((CanvasNode.construct sampleHeap (some ⟨some (JSNum.num 1), none⟩)).2.read
        (CanvasNode.construct sampleHeap (some ⟨some (JSNum.num 1), none⟩)).1).y.isFinite = true) ∧
     (((CanvasNode.move sampleHeap 0 (JSNum.num 2) (JSNum.num 3)).read 0).x.isFinite = true ∧
      ((CanvasNode.move sampleHeap 0 (JSNum.num 2) (JSNum.num 3)).read 0).y.isFinite = true)) :=
  ⟨by decide, by decide, by decide, by decide, by decide,
   fields_finite_of_finite_inputs sampleHeap (some ⟨some (JSNum.num 1), none⟩)
     0 (JSNum.num 2) (JSNum.num 3) (by decide) (by decide) (by decide)
     (by decide) (by decide)⟩

/-- C6: the position query has no side effect on the node: two successive
queries yield equal values, and the node fields are unchanged after both
calls. -/
theorem position_query_idempotent (h : Heap) (p : ℕ) (hp : p < h.size) :
    queryValue h p = queryValue (CanvasNode.positionGet h p).2 p ∧
    (CanvasNode.positionGet (CanvasNode.positionGet h p).2 p).2.read p =
      h.read p := by
  have h1 : (CanvasNode.positionGet h p).2.read p = h.read p :=
    positionGet_preserves_read h p p hp
  have hp1 : p < (CanvasNode.positionGet h p).2.size := by
    rw [positionGet_size]; omega
  constructor
  · rw [queryValue_eq_read, queryValue_eq_read, h1]
  · rw [positionGet_preserves_read (CanvasNode.positionGet h p).2 p p hp1, h1]

/-- Witness for C6 at a concrete one-object heap. -/
theorem position_query_idempotent_witness :
    0 < sampleHeap.size ∧
    (queryValue sampleHeap 0 = queryValue (CanvasNode.positionGet sampleHeap 0).2 0 ∧
     (CanvasNode.positionGet (CanvasNode.positionGet sampleHeap 0).2 0).2.read 0 =
       sampleHeap.read 0) :=
  ⟨by decide, position_query_idempotent sampleHeap 0 (by decide)⟩

/-- C7: no operation fails on well-typed inputs: in the error-aware
embedding, construction, the position query and move all return ok and
agree with the pure semantics, for every configuration, every pair of
numbers and every live node. -/
theorem operations_never_fail (h : Heap) (position : Option Config) (p : ℕ)
    (x y : JSNum) (hp : p < h.size) :
    CanvasNode.constructE h position =
      Except.ok (CanvasNode.construct h position) ∧
    CanvasNode.positionGetE h p = Except.ok (CanvasNode.positionGet h p) ∧
    CanvasNode.moveE h p x y = Except.ok (CanvasNode.move h p x y) := by
  refine ⟨rfl, ?_, ?_⟩
  · simp only [CanvasNode.positionGetE, Heap.readE_ok h p hp]
    rfl
  · simp only [CanvasNode.moveE, Heap.readE_ok h p hp]
    rfl

/-- Witness for C7 at concrete inputs. -/
theorem operations_never_fail_witness :
    0 < sampleHeap.size ∧
    (CanvasNode.constructE sampleHeap none =
       Except.ok (CanvasNode.construct sampleHeap none) ∧
     CanvasNode.positionGetE sampleHeap 0 =
       Except.ok (CanvasNode.positionGet sampleHeap 0) ∧
     CanvasNode.moveE sampleHeap 0 (JSNum.num 1) (JSNum.num 2) =
       Except.ok (CanvasNode.move sampleHeap 0 (JSNum.num 1) (JSNum.num 2))) :=
  ⟨by decide,
   operations_never_fail sampleHeap none 0 (JSNum.num 1) (JSNum.num 2)
     (by decide)⟩

/-- C8: the behavior is fully deterministic: the query outputs and the
final node state of any client program are a pure function of the
construction configuration and the operation sequence, namely the ones
computed by the abstract state function. -/
theorem run_outputs_deterministic (position : Option Config) (ops : List Op) :
    (runProgram position ops).outputs = (specRun (initObj position) ops).2 ∧
    (runProgram position ops).heap.read (runProgram position ops).node =
      (specRun (initObj position) ops).1 := by
  have h := foldl_step_simulates ops
    { heap := (CanvasNode.construct ⟨[]⟩ position).2
      node := (CanvasNode.construct ⟨[]⟩ position).1
      outputs := [] } (construct_valid ⟨[]⟩ position)
  have hinit :
      ((CanvasNode.construct ⟨[]⟩ position).2).read
        (CanvasNode.construct ⟨[]⟩ position).1 = initObj position :=
    construct_read ⟨[]⟩ position
  simp only [hinit] at h
  constructor
  · simpa [runProgram] using h.2.2.2
  · have hball : (runProgram position ops).node =
        (CanvasNode.construct ⟨[]⟩ position).1 := h.1
    rw [hball]
    simpa [runProgram] using h.2.2.1

/-- C9: constructing with no configuration and then moving to a, b yields
the same node state, and the same position query value, as constructing
directly with the configuration holding a and b. -/
theorem construct_then_move_refines_direct (h : Heap) (a b : JSNum) :
    (CanvasNode.move (CanvasNode.construct h none).2
        (CanvasNode.construct h none).1 a b).read
        (CanvasNode.construct h none).1 =
      (CanvasNode.construct h (some ⟨some a, some b⟩)).2.read
        (CanvasNode.construct h (some ⟨some a, some b⟩)).1 ∧
    queryValue
        (CanvasNode.move (CanvasNode.construct h none).2
          (CanvasNode.construct h none).1 a b)
        (CanvasNode.construct h none).1 =
      queryValue (CanvasNode.construct h (some ⟨some a, some b⟩)).2
        (CanvasNode.construct h (some ⟨some a, some b⟩)).1 := by
  have h1 : (CanvasNode.move (CanvasNode.construct h none).2
      (CanvasNode.construct h none).1 a b).read
      (CanvasNode.construct h none).1 = ⟨a, b⟩ :=
    Heap.read_write_self _ _ ⟨a, b⟩ (construct_valid h none)
  have h2 : (CanvasNode.construct h (some ⟨some a, some b⟩)).2.read
      (CanvasNode.construct h (some ⟨some a, some b⟩)).1 = ⟨a, b⟩ := by
    simp [construct_read, nullish, optChain]
  constructor
  · rw [h1, h2]
  · rw [queryValue_eq_read, queryValue_eq_read, h1, h2]

/-- C10: every value of the number type, the non-finite ones included, is
accepted and stored verbatim: after move with v for both arguments the
position query returns the pair of v with itself, and moving to NaN
leaves a stored value that is NaN. -/
theorem nonfinite_values_stored_verbatim (h : Heap) (v : JSNum) :
    queryValue
        (CanvasNode.move (CanvasNode.construct h none).2
          (CanvasNode.construct h none).1 v v)
        (CanvasNode.construct h none).1 = ⟨v, v⟩ ∧
    JSNum.isNaN
      (queryValue
        (CanvasNode.move (CanvasNode.construct h none).2
          (CanvasNode.construct h none).1 JSNum.nan JSNum.nan)
        (CanvasNode.construct h none).1).x = true := by
  constructor
  · rw [queryValue_eq_read]
    exact Heap.read_write_self _ _ ⟨v, v⟩ (construct_valid h none)
  · rw [queryValue_eq_read]
    simp only [CanvasNode.move]
    rw [Heap.read_write_self _ _ ⟨JSNum.nan, JSNum.nan⟩ (construct_valid h none)]
    rfl
